import Mathlib

/-!
Verification of the `@novice1/validator-typebox` middleware (src/index.ts).

The middleware is shallowly embedded over a model of JavaScript runtime
values (`JsValue`).  TypeBox schemas are modelled by the `schemaObj`
constructor carrying the schema `type` string and, for object schemas,
the `properties` field map; the TypeBox guards `IsSchema` / `IsObject`
and the constructor `Type.Object` are modelled on top of it.  The
schema-compilation engine (`Compile`, `C.Parse`, `C.Errors`) is external
to this repository and is abstracted as a `TypeboxEngine` record of
functions.  Prototype-chain lookups of the JavaScript `in` operator are
not modelled; only own keys are visible.
-/

/-- Model of a JavaScript runtime value, as far as the middleware
inspects one.  `schemaObj ty props` models a TypeBox schema whose
`type` field is `ty` and whose `properties` field (for object schemas)
is `props`; `func` models any function value. -/
inductive JsValue where
  | undefined : JsValue
  | null : JsValue
  | bool : Bool → JsValue
  | num : Int → JsValue
  | str : String → JsValue
  | arr : List JsValue → JsValue
  | obj : List (String × JsValue) → JsValue
  | schemaObj : String → Option (List (String × JsValue)) → JsValue
  | func : Nat → JsValue

namespace JsValue

/-- JavaScript truthiness of a value. -/
def truthy : JsValue → Bool
  | undefined => false
  | null => false
  | bool b => b
  | num n => n != 0
  | str s => s != ""
  | arr _ => true
  | obj _ => true
  | schemaObj _ _ => true
  | func _ => true

/-- Whether `typeof v === 'object'` holds (true for `null` and arrays,
false for functions). -/
def typeofObject : JsValue → Bool
  | null => true
  | arr _ => true
  | obj _ => true
  | schemaObj _ _ => true
  | _ => false

/-- Whether the value is an array (`Array.isArray`). -/
def isArr : JsValue → Bool
  | arr _ => true
  | _ => false

/-- Whether the value is a function (`typeof v === 'function'`). -/
def isFunc : JsValue → Bool
  | func _ => true
  | _ => false

/-- Lookup of an own key of an object-like value, yielding `undefined`
when the key is absent.  Arrays expose their canonical decimal indices
and `length`; a schema value exposes its `type` and `properties`
fields. -/
def get : JsValue → String → JsValue
  | obj fields, k =>
    match fields.find? (fun f => f.1 = k) with
    | some f => f.2
    | none => undefined
  | arr xs, k =>
    if k = "length" then num xs.length
    else
      match k.toNat? with
      | some i =>
        if h : i < xs.length then
          if toString i = k then xs.get ⟨i, h⟩ else undefined
        else undefined
      | none => undefined
  | schemaObj ty props, k =>
    if k = "type" then str ty
    else if k = "properties" then
      match props with
      | some f => obj f
      | none => undefined
    else undefined
  | _, _ => undefined

/-- Whether `k in v` holds for an own key `k` of `v`. -/
def hasKey : JsValue → String → Bool
  | obj fields, k => fields.any (fun f => f.1 = k)
  | arr xs, k =>
    if k = "length" then true
    else
      match k.toNat? with
      | some i => decide (i < xs.length) && (toString i = k)
      | none => false
  | schemaObj _ props, k =>
    k = "type" || (k = "properties" && props.isSome)
  | _, _ => false

end JsValue

/-- The six recognized request-part names (`PARAMETERS_PROPS` in
src/index.ts). -/
def PARAMETERS_PROPS : List String :=
  ["params", "body", "query", "headers", "cookies", "files"]

/-- Model of the TypeBox guard `IsSchema`: whether the value is a
TypeBox schema. -/
def IsSchemaTB : JsValue → Bool
  | .schemaObj _ _ => true
  | _ => false

/-- Model of the TypeBox guard `IsObject`: whether the value is a
TypeBox object schema (a `TObject`, carrying a `properties` map). -/
def IsObjectTB : JsValue → Bool
  | .schemaObj ty props => ty = "object" && props.isSome
  | _ => false

/-- Model of the TypeBox constructor `Type.Object`: builds an object
schema from a map of property schemas. -/
def TypeObject (props : List (String × JsValue)) : JsValue :=
  .schemaObj "object" (some props)

/-- Own enumerable fields of an object-like value, as `Type.Object`
would read them when wrapping it (arrays contribute their canonical
index keys). -/
def objFieldsOf : JsValue → List (String × JsValue)
  | .obj fields => fields
  | .arr xs => (List.range xs.length).zip xs |>.map (fun p => (toString p.1, p.2))
  | _ => []

/-- Reads a bracket segment `seg]` with no nested brackets, returning
the segment and the remainder; `none` when the regex
`\[([^\[\]]*)\]` fails to match at this position. -/
def takeSeg : List Char → Option (List Char × List Char)
  | [] => none
  | c :: rest =>
    if c = ']' then some ([], rest)
    else if c = '[' then none
    else
      match takeSeg rest with
      | some (seg, rest2) => some (c :: seg, rest2)
      | none => none

/-- Fuel-indexed scanner performing the global replacement of
`[seg]` by `.seg.` that `property.replace(/\[([^\[\]]*)\]/g, '.$1.')`
performs; the fuel is an upper bound on the input length, so the
zero-fuel branch is never reached when run through `bracketReplace`. -/
def bracketReplaceAux : Nat → List Char → List Char
  | 0, l => l
  | _ + 1, [] => []
  | fuel + 1, c :: rest =>
    if c = '[' then
      match takeSeg rest with
      | some (seg, rest2) => '.' :: (seg ++ '.' :: bracketReplaceAux fuel rest2)
      | none => c :: bracketReplaceAux fuel rest
    else c :: bracketReplaceAux fuel rest

/-- Global replacement of `[seg]` by `.seg.` over a character list. -/
def bracketReplace (l : List Char) : List Char :=
  bracketReplaceAux l.length l

/-- Splits a character list on `.` like `String.prototype.split('.')`,
accumulating the current token in reverse. -/
def splitDotAux : List Char → List Char → List String
  | [], acc => [String.mk acc.reverse]
  | c :: rest, acc =>
    if c = '.' then String.mk acc.reverse :: splitDotAux rest []
    else splitDotAux rest (c :: acc)

/-- The token list of a nested-path string: bracket segments rewritten
to dots, split on dots, empty tokens dropped — the
`.replace(...).split('.').filter(t => t !== '')` pipeline of
`retrieveParametersValue`. -/
def tokenize (s : String) : List String :=
  (splitDotAux (bracketReplace s.data) []).filter (fun t => t ≠ "")

/-- The `reduce` lookup of `retrieveParametersValue`: each token is
looked up in the previous value when that value is a truthy object
carrying the key; otherwise the accumulator becomes `undefined` and
stays there. -/
def pathReduce (init : JsValue) (tokens : List String) : JsValue :=
  tokens.foldl
    (fun prev curr =>
      if prev.truthy && prev.typeofObject && prev.hasKey curr then prev.get curr
      else JsValue.undefined)
    init

/-- Model of `retrieveParametersValue` (src/index.ts lines 23–51):
returns the configuration object itself, or the nested value at the
given dotted/bracketed path, provided the result is a truthy
non-array object; otherwise `none` (null). -/
def retrieveParametersValue (parameters : JsValue) (property : Option String) :
    Option JsValue :=
  if parameters.truthy && parameters.typeofObject then
    match property with
    | some p =>
      if p ≠ "" then
        let sub := pathReduce parameters (tokenize p)
        if sub.truthy && sub.typeofObject && !sub.isArr then some sub else none
      else some parameters
    | none => some parameters
  else none

/-- Model of the loose comparison `tempValue?.type == 'object'` in
`retrieveSchema`: the `type` field of the value compared against the
string literal. -/
def typeFieldIsObject (v : JsValue) : Bool :=
  match v.get "type" with
  | .str s => s = "object"
  | _ => false

/-- One step of the `PARAMETERS_PROPS.forEach` conversion loop in
`retrieveSchema`: a recognized part key holding a truthy object is
added to the accumulated property map, kept as-is when it is already
a schema and wrapped with `Type.Object` otherwise. -/
def convertPartStep (v : JsValue) (acc : List (String × JsValue)) (p : String) :
    List (String × JsValue) :=
  let currentSchemaValue := v.get p
  if currentSchemaValue.truthy && currentSchemaValue.typeofObject then
    if IsSchemaTB currentSchemaValue then acc ++ [(p, currentSchemaValue)]
    else acc ++ [(p, TypeObject (objFieldsOf currentSchemaValue))]
  else acc

/-- Normalization body of `retrieveSchema` (src/index.ts lines 55–85):
a value already recognized as an object schema is kept; otherwise each
recognized part key holding a truthy object is converted (schemas
kept, plain maps wrapped with `Type.Object`) and the non-empty result
wrapped with `Type.Object`; finally only a value whose `type` field is
`object` and which is an object schema is returned. -/
def schemaOfValue (v : JsValue) : Option JsValue :=
  if v.truthy then
    let tempValue :=
      if !IsObjectTB v then
        let tmpSchema := PARAMETERS_PROPS.foldl (convertPartStep v) []
        if tmpSchema.length ≠ 0 then TypeObject tmpSchema else JsValue.obj []
      else v
    if typeFieldIsObject tempValue && IsObjectTB tempValue then some tempValue
    else none
  else none

/-- Model of `retrieveSchema` (src/index.ts lines 53–88): resolve the
configured value, then normalize it into an object schema or nothing. -/
def retrieveSchema (parameters : JsValue) (property : Option String) :
    Option JsValue :=
  (retrieveParametersValue parameters property).bind schemaOfValue

/-- Model of the `ValidationObject` interface: the per-part validation
target bundle, with `none` marking a part key absent from the
bundle. -/
structure ValidationObject where
  params : Option JsValue := none
  body : Option JsValue := none
  query : Option JsValue := none
  headers : Option JsValue := none
  cookies : Option JsValue := none
  files : Option JsValue := none

/-- Model of the request object, restricted to what the middleware
reads and writes: `meta.parameters`, the six part properties, and the
`validated` accessor attached on success (`none` when absent). -/
structure Request where
  meta_parameters : JsValue
  params : JsValue
  body : JsValue
  query : JsValue
  headers : JsValue
  cookies : JsValue
  files : JsValue
  validated : Option ValidationObject

/-- Model of `buildValueToValidate` (src/index.ts lines 90–114): copy
into the bundle exactly the recognized parts declared in the schema
`properties`. -/
def buildValueToValidate (schema : JsValue) (req : Request) : ValidationObject :=
  let properties := schema.get "properties"
  if properties.truthy && properties.typeofObject then
    { params := if properties.hasKey "params" then some req.params else none
      body := if properties.hasKey "body" then some req.body else none
      query := if properties.hasKey "query" then some req.query else none
      headers := if properties.hasKey "headers" then some req.headers else none
      cookies := if properties.hasKey "cookies" then some req.cookies else none
      files := if properties.hasKey "files" then some req.files else none }
  else {}

/-- The `parseEnabled` computation (src/index.ts lines 240–244): a
boolean per-route `validatorTypeboxOptions` wins; when that key is
absent (`undefined`) the factory `options?.parse` flag decides; any
other value yields `false`.  `optionsParse` is the effective boolean
of `options?.parse` (false when the factory options are absent). -/
def parseEnabled (validatorTypeboxOptions : JsValue) (optionsParse : Bool) : Bool :=
  match validatorTypeboxOptions with
  | .bool b => b
  | .undefined => optionsParse
  | _ => false

/-- Abstraction of the external TypeBox compiled validator: `parse`
models `C.Parse` (throwing an exception modelled as `Except.error`),
and `errorsOf` models collecting `[...C.Errors(values)]`, both against
the compiled schema given as first argument. -/
structure TypeboxEngine where
  parse : JsValue → ValidationObject → Except JsValue ValidationObject
  errorsOf : JsValue → ValidationObject → List JsValue

/-- One assignment of `Extend(req, validatedProps)`: the property is
overwritten when the source bundle carries the key with a defined
value (the `extend` package skips `undefined` values). -/
def extendProp (current : JsValue) : Option JsValue → JsValue
  | some JsValue.undefined => current
  | some v => v
  | none => current

/-- Model of lines 251–253: destructure `query` out of the parsed
bundle and shallow-merge the remaining parts onto the request. -/
def extendReq (req : Request) (parsedValues : ValidationObject) : Request :=
  { req with
    params := extendProp req.params parsedValues.params
    body := extendProp req.body parsedValues.body
    headers := extendProp req.headers parsedValues.headers
    cookies := extendProp req.cookies parsedValues.cookies
    files := extendProp req.files parsedValues.files }

/-- Observable outcome of one middleware invocation: `next()` called,
the per-route error handler invoked, the factory error handler
invoked, or `res.status(400).json` sent — each error outcome carrying
the error descriptor list of the envelope. -/
inductive Outcome where
  | next : Outcome
  | routeError : List JsValue → Outcome
  | factoryError : List JsValue → Outcome
  | respond400 : List JsValue → Outcome

/-- Model of src/index.ts lines 258–283: collect the errors of the
(possibly parsed) bundle; on failure dispatch to the per-route
handler, the factory handler, or the 400 response; on success attach
the `validated` accessor and call `next`. -/
def validateStage (engine : TypeboxEngine) (schema : JsValue) (req : Request)
    (parsedValues : ValidationObject) (onerror : JsValue) : Outcome × Request :=
  let errors := engine.errorsOf schema parsedValues
  if errors.isEmpty then
    (Outcome.next, { req with validated := some parsedValues })
  else
    if (req.meta_parameters.get "onerror").isFunc then
      (Outcome.routeError errors, req)
    else if onerror.truthy then
      if onerror.isFunc then (Outcome.factoryError errors, req)
      else (Outcome.respond400 errors, req)
    else (Outcome.respond400 errors, req)

/-- Model of `validatorTypeboxRequestHandler` (src/index.ts lines
230–283): resolve the schema (skipping validation when there is
none), build the target bundle, optionally parse it — assigning the
parsed parts except `query` back onto the request on success and
swallowing parse exceptions — then validate and dispatch. -/
def validatorTypeboxRequestHandler (engine : TypeboxEngine) (optionsParse : Bool)
    (onerror : JsValue) (schemaProperty : Option String) (req : Request) :
    Outcome × Request :=
  match retrieveSchema req.meta_parameters schemaProperty with
  | none => (Outcome.next, req)
  | some schema =>
    let values := buildValueToValidate schema req
    if parseEnabled (req.meta_parameters.get "validatorTypeboxOptions") optionsParse then
      match engine.parse schema values with
      | .ok parsedValues =>
        validateStage engine schema (extendReq req parsedValues) parsedValues onerror
      | .error _ => validateStage engine schema req values onerror
    else validateStage engine schema req values onerror

/-- Sample per-part schema source, as it would sit in route
configuration: a plain field map under `body`. -/
def sampleSchemaSource : JsValue :=
  JsValue.obj [("body", JsValue.obj [("name", JsValue.schemaObj "string" none)])]

/-- The composite schema that `retrieveSchema` builds from
`sampleSchemaSource`. -/
def sampleBodySchema : JsValue :=
  TypeObject [("body", TypeObject [("name", JsValue.schemaObj "string" none)])]

/-- Sample request whose route configuration carries the schema under
`schema` and a boolean per-route parse override. -/
def sampleReq : Request :=
  ⟨JsValue.obj [("schema", sampleSchemaSource), ("validatorTypeboxOptions", JsValue.bool true)],
    JsValue.obj [], JsValue.obj [("name", JsValue.str "a")],
    JsValue.obj [("page", JsValue.str "2")], JsValue.obj [],
    JsValue.undefined, JsValue.undefined, none⟩

/-- Sample request with no parse override and no route error handler. -/
def plainReq : Request :=
  ⟨JsValue.obj [("schema", sampleSchemaSource)],
    JsValue.obj [], JsValue.obj [("name", JsValue.str "a")],
    JsValue.obj [("page", JsValue.str "2")], JsValue.obj [],
    JsValue.undefined, JsValue.undefined, none⟩

/-- Sample target bundle holding only the body part. -/
def sampleBundle : ValidationObject :=
  { body := some (JsValue.obj [("name", JsValue.str "a")]) }

/-- Engine whose compiled validator accepts everything and parses to
the input unchanged. -/
def okParseEngine : TypeboxEngine :=
  ⟨fun _ v => Except.ok v, fun _ _ => []⟩

/-- Engine whose compiled validator reports one error on every
bundle. -/
def oneErrorEngine : TypeboxEngine :=
  ⟨fun _ v => Except.ok v, fun _ _ => [JsValue.str "required"]⟩

/-- Engine whose `Parse` always throws. -/
def throwParseEngine : TypeboxEngine :=
  ⟨fun _ _ => Except.error (JsValue.str "boom"), fun _ _ => []⟩

/-- Engine modelling a query coercion: parsing rewrites the query part
of the bundle to its numeric form, and the parsed bundle validates
cleanly. -/
def parseQueryEngine : TypeboxEngine :=
  ⟨fun _ v => Except.ok { v with query := some (JsValue.obj [("page", JsValue.num 2)]) },
    fun _ _ => []⟩

/-- Route configuration declaring a `query` schema with the boolean
per-route parse override. -/
def queryMeta : JsValue :=
  JsValue.obj
    [("schema", JsValue.obj [("query", JsValue.obj [("page", JsValue.schemaObj "number" none)])]),
      ("validatorTypeboxOptions", JsValue.bool true)]

/-- Sample request for the query-parsing scenario: the live query
carries the string form of the number. -/
def queryReq : Request :=
  ⟨queryMeta, JsValue.obj [], JsValue.obj [],
    JsValue.obj [("page", JsValue.str "2")], JsValue.obj [],
    JsValue.undefined, JsValue.undefined, none⟩

/-- The composite schema resolved from `queryMeta`. -/
def queryCompositeSchema : JsValue :=
  TypeObject [("query", TypeObject [("page", JsValue.schemaObj "number" none)])]

/-- The bundle produced by `parseQueryEngine` on the query scenario. -/
def queryParsedBundle : ValidationObject :=
  { query := some (JsValue.obj [("page", JsValue.num 2)]) }

/-- Whether an optional bundle entry is not the JavaScript `undefined`
value (the `extend` package skips `undefined` values when merging). -/
def definedPart : Option JsValue → Bool
  | some JsValue.undefined => false
  | _ => true

/-- Whether a value can appear under a part key of a per-part schema
mapping in the sense of the data model of the spec: absent, a plain
field map, or a schema. -/
def partMappingValue : JsValue → Bool
  | .undefined => true
  | .obj _ => true
  | .schemaObj _ _ => true
  | _ => false

/-- Modelled from the spec, one part key: an already-detected schema
is kept, a plain field map is wrapped into an object schema, an
absent key contributes nothing. -/
def specPerPartStep (v : JsValue) (acc : List (String × JsValue)) (p : String) :
    List (String × JsValue) :=
  match v.get p with
  | .schemaObj ty props => acc ++ [(p, JsValue.schemaObj ty props)]
  | .obj fields => acc ++ [(p, TypeObject fields)]
  | _ => acc

/-- Modelled from the spec: the per-part conversion of schema
resolution — each of the six recognized part keys present in the
value is converted to a sub-schema, keeping an already-detected
schema and wrapping a plain field map into an object schema. -/
def specPerPartConversion (v : JsValue) : List (String × JsValue) :=
  PARAMETERS_PROPS.foldl (specPerPartStep v) []

lemma isFunc_truthy (v : JsValue) (h : v.isFunc = true) : v.truthy = true := by
  cases v <;> first | rfl | simp [JsValue.isFunc] at h

lemma validateStage_success (engine : TypeboxEngine) (schema : JsValue)
    (req : Request) (parsedValues : ValidationObject) (onerror : JsValue)
    (h : (engine.errorsOf schema parsedValues).isEmpty = true) :
    validateStage engine schema req parsedValues onerror
      = (Outcome.next, { req with validated := some parsedValues }) := by
  simp [validateStage, h]

lemma validateStage_failure (engine : TypeboxEngine) (schema : JsValue)
    (req : Request) (parsedValues : ValidationObject) (onerror : JsValue)
    (h : (engine.errorsOf schema parsedValues).isEmpty = false) :
    validateStage engine schema req parsedValues onerror
      = (if (req.meta_parameters.get "onerror").isFunc then
          Outcome.routeError (engine.errorsOf schema parsedValues)
        else if onerror.isFunc then
          Outcome.factoryError (engine.errorsOf schema parsedValues)
        else
          Outcome.respond400 (engine.errorsOf schema parsedValues), req) := by
  simp only [validateStage, h, Bool.false_eq_true, if_false]
  cases hro : (req.meta_parameters.get "onerror").isFunc
  · simp only [if_false, Bool.false_eq_true]
    cases onerror <;> simp [JsValue.isFunc, JsValue.truthy]
  · simp

lemma validateStage_snd (engine : TypeboxEngine) (schema : JsValue)
    (req : Request) (parsedValues : ValidationObject) (onerror : JsValue) :
    (validateStage engine schema req parsedValues onerror).2 = req
    ∨ (validateStage engine schema req parsedValues onerror).2
        = { req with validated := some parsedValues } := by
  cases h : (engine.errorsOf schema parsedValues).isEmpty
  · left
    rw [validateStage_failure engine schema req parsedValues onerror h]
  · right
    rw [validateStage_success engine schema req parsedValues onerror h]

lemma handler_parse_error_raw (engine : TypeboxEngine) (optionsParse : Bool)
    (onerror : JsValue) (schemaProperty : Option String) (req : Request)
    (schema e : JsValue)
    (hs : retrieveSchema req.meta_parameters schemaProperty = some schema)
    (hp : engine.parse schema (buildValueToValidate schema req) = Except.error e) :
    validatorTypeboxRequestHandler engine optionsParse onerror schemaProperty req
      = validateStage engine schema req (buildValueToValidate schema req) onerror := by
  unfold validatorTypeboxRequestHandler
  rw [hs]
  cases hpe : parseEnabled (req.meta_parameters.get "validatorTypeboxOptions") optionsParse
  · simp [hpe]
  · simp [hpe, hp]

lemma handler_parse_ok (engine : TypeboxEngine) (optionsParse : Bool)
    (onerror : JsValue) (schemaProperty : Option String) (req : Request)
    (schema : JsValue) (parsedValues : ValidationObject)
    (hs : retrieveSchema req.meta_parameters schemaProperty = some schema)
    (hpe : parseEnabled (req.meta_parameters.get "validatorTypeboxOptions") optionsParse = true)
    (hp : engine.parse schema (buildValueToValidate schema req) = Except.ok parsedValues) :
    validatorTypeboxRequestHandler engine optionsParse onerror schemaProperty req
      = validateStage engine schema (extendReq req parsedValues) parsedValues onerror := by
  unfold validatorTypeboxRequestHandler
  rw [hs]
  simp [hpe, hp]

lemma extendProp_getD (cur : JsValue) (o : Option JsValue)
    (h : definedPart o = true) : extendProp cur o = o.getD cur := by
  cases o with
  | none => rfl
  | some v => cases v <;> first | rfl | simp [definedPart] at h

/-- C1: the per-route `validatorTypeboxOptions` override determines
parsing only when it is a boolean.  A structured override such as
`{ parse: true }` — the form documented for this key — is neither
honored nor replaced by the factory flag: it disables parsing
outright, even when the factory enabled it.  The last three conjuncts
record the behaviors that do work: boolean overrides win in both
directions and an absent override defers to the factory flag. -/
theorem C1_structured_parse_override_ignored :
    parseEnabled (JsValue.obj [("parse", JsValue.bool true)]) true = false
    ∧ parseEnabled (JsValue.obj [("parse", JsValue.bool true)]) false = false
    ∧ parseEnabled (JsValue.bool true) false = true
    ∧ parseEnabled (JsValue.bool false) true = false
    ∧ parseEnabled JsValue.undefined true = true :=
  ⟨rfl, rfl, rfl, rfl, rfl⟩

/-- C3: the validation target bundle built from a composite schema
contains exactly the recognized parts declared among the schema
properties, each mapped to the corresponding live request value, and
no others — whatever else the request carries. -/
theorem C3_bundle_contains_exactly_declared_parts
    (props : List (String × JsValue)) (req : Request) :
    buildValueToValidate (TypeObject props) req =
      { params := if (JsValue.obj props).hasKey "params" then some req.params else none
        body := if (JsValue.obj props).hasKey "body" then some req.body else none
        query := if (JsValue.obj props).hasKey "query" then some req.query else none
        headers := if (JsValue.obj props).hasKey "headers" then some req.headers else none
        cookies := if (JsValue.obj props).hasKey "cookies" then some req.cookies else none
        files := if (JsValue.obj props).hasKey "files" then some req.files else none } :=
  rfl

/-- C9: when schema resolution yields nothing, the middleware calls
`next` immediately and returns the request untouched — no validation,
no parsing, no modification. -/
theorem C9_no_schema_calls_next_unchanged (engine : TypeboxEngine)
    (optionsParse : Bool) (onerror : JsValue) (schemaProperty : Option String)
    (req : Request)
    (h : retrieveSchema req.meta_parameters schemaProperty = none) :
    validatorTypeboxRequestHandler engine optionsParse onerror schemaProperty req
      = (Outcome.next, req) := by
  unfold validatorTypeboxRequestHandler
  rw [h]

/-- Witness for C9 at a request with no route configuration at all. -/
theorem C9_no_schema_witness :
    validatorTypeboxRequestHandler okParseEngine false JsValue.undefined none
        ⟨JsValue.undefined, JsValue.obj [], JsValue.obj [], JsValue.obj [],
          JsValue.obj [], JsValue.undefined, JsValue.undefined, none⟩
      = (Outcome.next,
          ⟨JsValue.undefined, JsValue.obj [], JsValue.obj [], JsValue.obj [],
            JsValue.obj [], JsValue.undefined, JsValue.undefined, none⟩) :=
  C9_no_schema_calls_next_unchanged okParseEngine false JsValue.undefined none _ rfl

/-- C2: on a non-empty error sequence the middleware dispatches to
exactly one option, in order: the per-route `onerror` when it is a
function, otherwise the factory error handler when it is a function
(a non-function factory value falls through), otherwise the HTTP 400
response — each receiving the full ordered error sequence, and none
touching the request. -/
theorem C2_error_dispatch_order (engine : TypeboxEngine) (schema : JsValue)
    (req : Request) (parsedValues : ValidationObject) (onerror : JsValue)
    (h : (engine.errorsOf schema parsedValues).isEmpty = false) :
    validateStage engine schema req parsedValues onerror
      = (if (req.meta_parameters.get "onerror").isFunc then
          Outcome.routeError (engine.errorsOf schema parsedValues)
        else if onerror.isFunc then
          Outcome.factoryError (engine.errorsOf schema parsedValues)
        else
          Outcome.respond400 (engine.errorsOf schema parsedValues), req) :=
  validateStage_failure engine schema req parsedValues onerror h

/-- Witness for C2: with no route handler and no factory handler the
dispatch ends at the 400 response carrying the error list. -/
theorem C2_error_dispatch_witness :
    validateStage oneErrorEngine sampleBodySchema plainReq sampleBundle JsValue.undefined
      = (Outcome.respond400 [JsValue.str "required"], plainReq) :=
  (C2_error_dispatch_order oneErrorEngine sampleBodySchema plainReq sampleBundle
    JsValue.undefined rfl).trans rfl

/-- C8: the `validated` accessor is attached exactly on success — an
empty error sequence leads to `next` with the accessor returning the
possibly parsed bundle, while a non-empty one leaves the accessor as
it was. -/
theorem C8_validated_attached_iff_success (engine : TypeboxEngine)
    (schema : JsValue) (req : Request) (parsedValues : ValidationObject)
    (onerror : JsValue) :
    ((engine.errorsOf schema parsedValues).isEmpty = true →
      validateStage engine schema req parsedValues onerror
        = (Outcome.next, { req with validated := some parsedValues }))
    ∧ ((engine.errorsOf schema parsedValues).isEmpty = false →
      (validateStage engine schema req parsedValues onerror).2.validated
        = req.validated) := by
  constructor
  · intro h
    exact validateStage_success engine schema req parsedValues onerror h
  · intro h
    rw [validateStage_failure engine schema req parsedValues onerror h]

/-- Witness for C8: the accessor appears on the clean run and stays
absent on the failing run. -/
theorem C8_validated_witness :
    validateStage okParseEngine sampleBodySchema plainReq sampleBundle JsValue.undefined
        = (Outcome.next, { plainReq with validated := some sampleBundle })
    ∧ (validateStage oneErrorEngine sampleBodySchema plainReq sampleBundle
        JsValue.undefined).2.validated = plainReq.validated :=
  ⟨(C8_validated_attached_iff_success okParseEngine sampleBodySchema plainReq
      sampleBundle JsValue.undefined).1 rfl,
    (C8_validated_attached_iff_success oneErrorEngine sampleBodySchema plainReq
      sampleBundle JsValue.undefined).2 rfl⟩

/-- C6: when the coercion step throws, the exception is swallowed and
the run continues exactly as the no-parsing run would: validation is
performed on the original, unparsed bundle against the request as it
was. -/
theorem C6_parse_exception_swallowed (engine : TypeboxEngine)
    (optionsParse : Bool) (onerror : JsValue) (schemaProperty : Option String)
    (req : Request) (schema e : JsValue)
    (hs : retrieveSchema req.meta_parameters schemaProperty = some schema)
    (hp : engine.parse schema (buildValueToValidate schema req) = Except.error e) :
    validatorTypeboxRequestHandler engine optionsParse onerror schemaProperty req
      = validateStage engine schema req (buildValueToValidate schema req) onerror :=
  handler_parse_error_raw engine optionsParse onerror schemaProperty req schema e hs hp

/-- Witness for C6: a throwing parser on a parse-enabled route leaves
the run equal to plain validation of the raw bundle. -/
theorem C6_parse_exception_witness :
    validatorTypeboxRequestHandler throwParseEngine false JsValue.undefined
        (some "schema") sampleReq
      = validateStage throwParseEngine sampleBodySchema sampleReq
          (buildValueToValidate sampleBodySchema sampleReq) JsValue.undefined :=
  C6_parse_exception_swallowed throwParseEngine false JsValue.undefined
    (some "schema") sampleReq sampleBodySchema (JsValue.str "boom") rfl rfl

/-- C10: a throwing coercion step mutates nothing: every part property
of the request coming out of the run equals the one that went in. -/
theorem C10_parse_exception_no_mutation (engine : TypeboxEngine)
    (optionsParse : Bool) (onerror : JsValue) (schemaProperty : Option String)
    (req : Request) (schema e : JsValue)
    (hs : retrieveSchema req.meta_parameters schemaProperty = some schema)
    (hp : engine.parse schema (buildValueToValidate schema req) = Except.error e) :
    ((validatorTypeboxRequestHandler engine optionsParse onerror schemaProperty req).2.params
        = req.params)
    ∧ ((validatorTypeboxRequestHandler engine optionsParse onerror schemaProperty req).2.body
        = req.body)
    ∧ ((validatorTypeboxRequestHandler engine optionsParse onerror schemaProperty req).2.query
        = req.query)
    ∧ ((validatorTypeboxRequestHandler engine optionsParse onerror schemaProperty req).2.headers
        = req.headers)
    ∧ ((validatorTypeboxRequestHandler engine optionsParse onerror schemaProperty req).2.cookies
        = req.cookies)
    ∧ ((validatorTypeboxRequestHandler engine optionsParse onerror schemaProperty req).2.files
        = req.files) := by
  rw [handler_parse_error_raw engine optionsParse onerror schemaProperty req schema e hs hp]
  rcases validateStage_snd engine schema req (buildValueToValidate schema req) onerror
    with h | h <;> rw [h] <;> exact ⟨rfl, rfl, rfl, rfl, rfl, rfl⟩

/-- Witness for C10: the throwing parser leaves every part of the
sample request in place. -/
theorem C10_parse_exception_witness :
    ((validatorTypeboxRequestHandler throwParseEngine false JsValue.undefined
        (some "schema") sampleReq).2.params = sampleReq.params)
    ∧ ((validatorTypeboxRequestHandler throwParseEngine false JsValue.undefined
        (some "schema") sampleReq).2.body = sampleReq.body)
    ∧ ((validatorTypeboxRequestHandler throwParseEngine false JsValue.undefined
        (some "schema") sampleReq).2.query = sampleReq.query)
    ∧ ((validatorTypeboxRequestHandler throwParseEngine false JsValue.undefined
        (some "schema") sampleReq).2.headers = sampleReq.headers)
    ∧ ((validatorTypeboxRequestHandler throwParseEngine false JsValue.undefined
        (some "schema") sampleReq).2.cookies = sampleReq.cookies)
    ∧ ((validatorTypeboxRequestHandler throwParseEngine false JsValue.undefined
        (some "schema") sampleReq).2.files = sampleReq.files) :=
  C10_parse_exception_no_mutation throwParseEngine false JsValue.undefined
    (some "schema") sampleReq sampleBodySchema (JsValue.str "boom") rfl rfl

/-- C7: when parsing succeeds (and, as `Parse` guarantees for the real
engine, the parsed bundle validates cleanly), the live query object is
left untouched while every other part carried by the parsed bundle
overwrites the corresponding request property — absent parts staying
as they were — and the parsed bundle, query included, is retrievable
through the attached accessor. -/
theorem C7_query_preserved_parts_overwritten (engine : TypeboxEngine)
    (optionsParse : Bool) (onerror : JsValue) (schemaProperty : Option String)
    (req : Request) (schema : JsValue) (parsedValues : ValidationObject)
    (hs : retrieveSchema req.meta_parameters schemaProperty = some schema)
    (hpe : parseEnabled (req.meta_parameters.get "validatorTypeboxOptions") optionsParse
        = true)
    (hp : engine.parse schema (buildValueToValidate schema req) = Except.ok parsedValues)
    (hd : (definedPart parsedValues.params && definedPart parsedValues.body
        && definedPart parsedValues.headers && definedPart parsedValues.cookies
        && definedPart parsedValues.files) = true)
    (hv : (engine.errorsOf schema parsedValues).isEmpty = true) :
    ((validatorTypeboxRequestHandler engine optionsParse onerror schemaProperty req).2.query
        = req.query)
    ∧ ((validatorTypeboxRequestHandler engine optionsParse onerror schemaProperty req).2.params
        = parsedValues.params.getD req.params)
    ∧ ((validatorTypeboxRequestHandler engine optionsParse onerror schemaProperty req).2.body
        = parsedValues.body.getD req.body)
    ∧ ((validatorTypeboxRequestHandler engine optionsParse onerror schemaProperty req).2.headers
        = parsedValues.headers.getD req.headers)
    ∧ ((validatorTypeboxRequestHandler engine optionsParse onerror schemaProperty req).2.cookies
        = parsedValues.cookies.getD req.cookies)
    ∧ ((validatorTypeboxRequestHandler engine optionsParse onerror schemaProperty req).2.files
        = parsedValues.files.getD req.files)
    ∧ ((validatorTypeboxRequestHandler engine optionsParse onerror schemaProperty req).2.validated
        = some parsedValues) := by
  simp only [Bool.and_eq_true] at hd
  obtain ⟨⟨⟨⟨hd1, hd2⟩, hd3⟩, hd4⟩, hd5⟩ := hd
  rw [handler_parse_ok engine optionsParse onerror schemaProperty req schema parsedValues
    hs hpe hp]
  rw [validateStage_success engine schema (extendReq req parsedValues) parsedValues
    onerror hv]
  refine ⟨rfl, ?_, ?_, ?_, ?_, ?_, rfl⟩
  · exact extendProp_getD req.params parsedValues.params hd1
  · exact extendProp_getD req.body parsedValues.body hd2
  · exact extendProp_getD req.headers parsedValues.headers hd3
  · exact extendProp_getD req.cookies parsedValues.cookies hd4
  · exact extendProp_getD req.files parsedValues.files hd5

/-- Witness for C7: coercing the string query `page` to its number
form leaves the live query string untouched and exposes the numeric
value through the accessor. -/
theorem C7_query_parse_witness :
    ((validatorTypeboxRequestHandler parseQueryEngine false JsValue.undefined
        (some "schema") queryReq).2.query = queryReq.query)
    ∧ ((validatorTypeboxRequestHandler parseQueryEngine false JsValue.undefined
        (some "schema") queryReq).2.params = queryParsedBundle.params.getD queryReq.params)
    ∧ ((validatorTypeboxRequestHandler parseQueryEngine false JsValue.undefined
        (some "schema") queryReq).2.body = queryParsedBundle.body.getD queryReq.body)
    ∧ ((validatorTypeboxRequestHandler parseQueryEngine false JsValue.undefined
        (some "schema") queryReq).2.headers = queryParsedBundle.headers.getD queryReq.headers)
    ∧ ((validatorTypeboxRequestHandler parseQueryEngine false JsValue.undefined
        (some "schema") queryReq).2.cookies = queryParsedBundle.cookies.getD queryReq.cookies)
    ∧ ((validatorTypeboxRequestHandler parseQueryEngine false JsValue.undefined
        (some "schema") queryReq).2.files = queryParsedBundle.files.getD queryReq.files)
    ∧ ((validatorTypeboxRequestHandler parseQueryEngine false JsValue.undefined
        (some "schema") queryReq).2.validated = some queryParsedBundle) :=
  C7_query_preserved_parts_overwritten parseQueryEngine false JsValue.undefined
    (some "schema") queryReq queryCompositeSchema queryParsedBundle rfl rfl rfl rfl rfl

lemma rPV_tokenize_congr (a b : String) (ha : a ≠ "") (hb : b ≠ "")
    (h : tokenize a = tokenize b) (parameters : JsValue) :
    retrieveParametersValue parameters (some a)
      = retrieveParametersValue parameters (some b) := by
  unfold retrieveParametersValue
  simp [ha, hb, h]

/-- C5: a bracketed nested path resolves exactly like its dotted
equivalent, and resolution yields null whenever the walked path ends
at a missing value, a non-object, or an array. -/
theorem C5_bracket_dot_path_equivalence :
    (∀ parameters : JsValue,
      retrieveParametersValue parameters (some "options[schema]")
        = retrieveParametersValue parameters (some "options.schema"))
    ∧ (∀ (parameters : JsValue) (p : String), p ≠ "" →
        ((pathReduce parameters (tokenize p)).truthy
            && (pathReduce parameters (tokenize p)).typeofObject
            && !(pathReduce parameters (tokenize p)).isArr) = false →
        retrieveParametersValue parameters (some p) = none) := by
  constructor
  · intro parameters
    exact rPV_tokenize_congr "options[schema]" "options.schema" (by decide) (by decide)
      (by decide) parameters
  · intro parameters p hp hsub
    unfold retrieveParametersValue
    cases hpt : (parameters.truthy && parameters.typeofObject)
    · simp
    · simp [hp, hsub]

/-- Witness for C5: the bracketed and dotted spellings agree on a
nested configuration, and a path through a number resolves to null. -/
theorem C5_path_witness :
    retrieveParametersValue
        (JsValue.obj
          [("options", JsValue.obj [("schema", JsValue.obj [("x", JsValue.num 1)])])])
        (some "options[schema]")
      = retrieveParametersValue
        (JsValue.obj
          [("options", JsValue.obj [("schema", JsValue.obj [("x", JsValue.num 1)])])])
        (some "options.schema")
    ∧ retrieveParametersValue (JsValue.obj [("options", JsValue.num 1)])
        (some "options.schema") = none :=
  ⟨C5_bracket_dot_path_equivalence.1 _,
    C5_bracket_dot_path_equivalence.2 (JsValue.obj [("options", JsValue.num 1)])
      "options.schema" (by decide) rfl⟩

lemma convertPartStep_eq (v : JsValue) (acc : List (String × JsValue)) (p : String)
    (hp : partMappingValue (v.get p) = true) :
    convertPartStep v acc p = specPerPartStep v acc p := by
  unfold convertPartStep specPerPartStep
  cases hv : v.get p
  case undefined => rfl
  case obj fields => rfl
  case schemaObj ty props => rfl
  all_goals rw [hv] at hp
  all_goals simp [partMappingValue] at hp

lemma convert_fold_eq (v : JsValue) (ps : List String)
    (h : ∀ p ∈ ps, partMappingValue (v.get p) = true) :
    ∀ acc : List (String × JsValue),
      ps.foldl (convertPartStep v) acc = ps.foldl (specPerPartStep v) acc := by
  induction ps with
  | nil => intro acc; rfl
  | cons p ps ih =>
    intro acc
    have hp : partMappingValue (v.get p) = true := h p (List.mem_cons_self _ _)
    have hrest : ∀ q ∈ ps, partMappingValue (v.get q) = true :=
      fun q hq => h q (List.mem_cons_of_mem _ hq)
    simp only [List.foldl_cons, convertPartStep_eq v acc p hp, ih hrest]

/-- C4: on a resolved value that is not already a composite schema, in
which every recognized part key holds a schema or a plain field map,
resolution converts each present part (keeping schemas, wrapping field
maps) and wraps the result into a composite object schema — or yields
nothing when no recognized part is present. -/
theorem C4_per_part_mapping_wrapped (v : JsValue)
    (hv : v.truthy = true) (hni : IsObjectTB v = false)
    (h : ∀ p ∈ PARAMETERS_PROPS, partMappingValue (v.get p) = true) :
    schemaOfValue v
      = (if (specPerPartConversion v).isEmpty then none
         else some (TypeObject (specPerPartConversion v))) := by
  have hfold : PARAMETERS_PROPS.foldl (convertPartStep v) [] = specPerPartConversion v :=
    convert_fold_eq v PARAMETERS_PROPS h []
  simp only [schemaOfValue, hv, hni, Bool.not_false, if_true, hfold]
  cases hm : (specPerPartConversion v).isEmpty
  · have hlen : (specPerPartConversion v).length ≠ 0 := by
      intro hc
      rw [List.length_eq_zero] at hc
      rw [hc] at hm
      simp at hm
    simp [hlen, typeFieldIsObject, TypeObject, IsObjectTB, JsValue.get]
  · have hnil : specPerPartConversion v = [] := by
      cases hspec : specPerPartConversion v
      · rfl
      · rw [hspec] at hm; simp at hm
    simp [hnil, typeFieldIsObject, JsValue.get]

/-- Witness for C4: a mapping whose `body` is a plain field map
resolves to the composite schema wrapping that field map. -/
theorem C4_per_part_witness :
    schemaOfValue sampleSchemaSource = some sampleBodySchema := by
  rw [C4_per_part_mapping_wrapped sampleSchemaSource rfl rfl (by decide)]
  rfl
